import Mathlib

/-!
Shallow embedding of `src/persistencelandscape.rs` (persistence landscape
generation by a sweep over tent-function events).

Modelling conventions:
* `f32` values are modelled as exact rationals `ℚ`; a possibly non-finite
  float (infinity or NaN) is `Option ℚ` with `none` for the non-finite case,
  so `is_finite` is `Option.isSome`.  `FloatOrd` total order on finite
  values coincides with the numeric order, so `PointOrd` is ordered
  lexicographically on `(x, y)` over `ℚ`.
* A Rust panic (`expect`, `assert!`, out-of-bounds `Vec` indexing,
  `unreachable!`) is modelled by returning `none`; every function that can
  panic returns an `Option`.
* `usize` arithmetic follows release-build semantics: two's-complement wrap
  modulo `2 ^ 64`.
* `BinaryHeap` is a max-heap: `pop` removes a maximal element under the
  derived lexicographic order on `Event`.
-/

structure PointOrd where
  x : ℚ
  y : ℚ
deriving DecidableEq

inductive EventType where
  | Death
  | Birth
  | Middle
  | Intersection
deriving DecidableEq

structure Event where
  value : PointOrd
  event_type : EventType
  parent_mountain_id : Nat
  parent_mountain2_id : Option Nat
deriving DecidableEq

structure PersistenceMountain where
  position : Option Nat
  slope_rising : Bool
  birth : PointOrd
  middle : PointOrd
  death : PointOrd
  id : Nat
deriving DecidableEq

/-- A `BirthDeath` pair of `f32` values; `none` stands for a non-finite
(infinite or NaN) float, `some q` for the finite value `q`. -/
structure BirthDeath where
  birth : Option ℚ
  death : Option ℚ
deriving DecidableEq

def BirthDeath.is_finite (bd : BirthDeath) : Bool :=
  bd.birth.isSome && bd.death.isSome

/-- Comparison of rationals, mirroring `FloatOrd` on finite floats. -/
def qcmp (a b : ℚ) : Ordering :=
  if a < b then Ordering.lt else if b < a then Ordering.gt else Ordering.eq

def natCmp (a b : Nat) : Ordering :=
  if a < b then Ordering.lt else if b < a then Ordering.gt else Ordering.eq

/-- Derived `Ord` on `PointOrd`: lexicographic on declaration order (x, y). -/
def PointOrd.cmp (p q : PointOrd) : Ordering :=
  (qcmp p.x q.x).then (qcmp p.y q.y)

/-- Discriminant order of the `EventType` enum as declared in the source:
`Death < Birth < Middle < Intersection`. -/
def EventType.rank : EventType → Nat
  | EventType.Death => 0
  | EventType.Birth => 1
  | EventType.Middle => 2
  | EventType.Intersection => 3

def optNatCmp : Option Nat → Option Nat → Ordering
  | none, none => Ordering.eq
  | none, some _ => Ordering.lt
  | some _, none => Ordering.gt
  | some a, some b => natCmp a b

/-- Derived `Ord` on `Event`: lexicographic on declaration order
(value, event_type, parent_mountain_id, parent_mountain2_id),
with `Option<usize>` ordered `None < Some` then by value. -/
def Event.cmp (e1 e2 : Event) : Ordering :=
  ((PointOrd.cmp e1.value e2.value).then
    (natCmp e1.event_type.rank e2.event_type.rank)).then
    ((natCmp e1.parent_mountain_id e2.parent_mountain_id).then
      (optNatCmp e1.parent_mountain2_id e2.parent_mountain2_id))

def Event.leb (e1 e2 : Event) : Bool :=
  match Event.cmp e1 e2 with
  | Ordering.gt => false
  | _ => true

/-- Maximum of a nonempty collection of events under the derived order. -/
def maxEvent : Event → List Event → Event
  | acc, [] => acc
  | acc, e :: rest => maxEvent (if Event.leb acc e then e else acc) rest

/-- `BinaryHeap::pop`: remove and return a maximal element (the heap's
contents are modelled as a list; equal events are interchangeable values,
so removing the first occurrence of the maximum is faithful). -/
def popMax (l : List Event) : Option (Event × List Event) :=
  match l with
  | [] => none
  | e :: rest =>
    let m := maxEvent e rest
    some (m, l.erase m)

def create_mountain (birth death : ℚ) (index : Nat) : PersistenceMountain :=
  let half_dist := (death - birth) / 2
  { position := none
    slope_rising := true
    birth := { x := birth, y := 0 }
    middle := { x := half_dist + birth, y := half_dist }
    death := { x := death, y := 0 }
    id := index }

def generate_mountains (bd_pairs : List BirthDeath) : List PersistenceMountain :=
  ((bd_pairs.filter BirthDeath.is_finite).enum).map
    (fun p => create_mountain (p.2.birth.getD 0) (p.2.death.getD 0) p.1)

def generate_initial_events (mountains : List PersistenceMountain) : List Event :=
  (mountains.map (fun m =>
    [ { value := m.birth, event_type := EventType.Birth,
        parent_mountain_id := m.id, parent_mountain2_id := none },
      { value := m.middle, event_type := EventType.Middle,
        parent_mountain_id := m.id, parent_mountain2_id := none },
      { value := m.death, event_type := EventType.Death,
        parent_mountain_id := m.id, parent_mountain2_id := none } ])).flatten

structure Coord where
  x : ℚ
  y : ℚ
deriving DecidableEq

structure Line where
  start : Coord
  end_ : Coord
deriving DecidableEq

def current_segment_start (mountain : PersistenceMountain) : Coord :=
  match mountain.slope_rising with
  | true => { x := mountain.birth.x, y := mountain.birth.y }
  | false => { x := mountain.middle.x, y := mountain.middle.y }

def current_segment_end (mountain : PersistenceMountain) : Coord :=
  match mountain.slope_rising with
  | true => { x := mountain.middle.x, y := mountain.middle.y }
  | false => { x := mountain.death.x, y := mountain.death.y }

def create_line_segment (mountain : PersistenceMountain) : Line :=
  { start := current_segment_start mountain
    end_ := current_segment_end mountain }

inductive LineIntersection where
  | SinglePoint (intersection : Coord) ( is_proper : Bool)
  | Collinear
deriving DecidableEq

def cross (u v : Coord) : ℚ := u.x * v.y - u.y * v.x

def Coord.sub (a b : Coord) : Coord := { x := a.x - b.x, y := a.y - b.y }

/-- Modelled semantics of the external dependency
`geo::line_intersection::line_intersection` over exact rationals: for
non-parallel segments it returns the single common point when both
parameters lie in `[0,1]`, with the `is_proper` flag true exactly when the
point is interior to both segments (distinct from all four endpoints);
for parallel segments no result is proper — the repository's wrapper
collapses every non-proper outcome (`Collinear`, improper touch, no
intersection) to `None`, so those subcases are coalesced: collinear lines
report `Collinear`, parallel distinct lines report nothing. -/
def line_intersection (p q : Line) : Option LineIntersection :=
  let r := p.end_.sub p.start
  let s := q.end_.sub q.start
  let w := q.start.sub p.start
  let denom := cross r s
  if denom = 0 then
    if cross w r = 0 then some LineIntersection.Collinear else none
  else
    let t := cross w s / denom
    let u := cross w r / denom
    if 0 ≤ t ∧ t ≤ 1 ∧ 0 ≤ u ∧ u ≤ 1 then
      some (LineIntersection.SinglePoint
        { x := p.start.x + t * r.x, y := p.start.y + t * r.y }
        (decide (0 < t ∧ t < 1 ∧ 0 < u ∧ u < 1)))
    else none

def intersects_with_neighbor (m1 m2 : PersistenceMountain) : Option PointOrd :=
  if m1.slope_rising = m2.slope_rising then none
  else
    match line_intersection (create_line_segment m1) (create_line_segment m2) with
    | some (LineIntersection.SinglePoint c true) => some { x := c.x, y := c.y }
    | _ => none

/-- Bounds-checked list indexing (`Vec`/`VecDeque` `get`). -/
def listGet? {α : Type} (l : List α) (n : Nat) : Option α :=
  if h : n < l.length then some (l.get ⟨n, h⟩) else none

def USIZE : Nat := 2 ^ 64

/-- `usize` addition with release-build wrap-around. -/
def usize_add1 (a : Nat) : Nat := (a + 1) % USIZE

/-- `usize` subtraction of one with release-build wrap-around
(`0 - 1` wraps to `2 ^ 64 - 1`). -/
def usize_sub1 (a : Nat) : Nat := (a + (USIZE - 1)) % USIZE

/-- `log_to_landscape`: `mountain.position.expect(..)` panics (`none`) on an
unranked mountain; `landscapes[position]` panics on out-of-bounds index;
otherwise pushes the event's point onto layer `position` when
`position < k`. -/
def log_to_landscape (mountain : PersistenceMountain) (event : Event)
    (landscapes : List (List PointOrd)) (k : Nat) :
    Option (List (List PointOrd)) :=
  match mountain.position with
  | none => none
  | some position =>
    if position < k then
      match listGet? landscapes position with
      | none => none
      | some layer => some (landscapes.set position (layer ++ [event.value]))
    else some landscapes

/-- `handle_intersection`: probe the rank-neighbor at `offset` (`1` or `-1`)
for a crossing.  Outer `none` is a panic (`expect` on an unranked mountain,
`unreachable!` on a bad offset, or out-of-bounds `mountains[*neighbor]`);
`some none` means no crossing event. -/
def handle_intersection (status : List Nat) (m1 : PersistenceMountain)
    (mountains : List PersistenceMountain) (offset : Int) :
    Option (Option Event) :=
  match m1.position with
  | none => none
  | some position =>
    match (match offset with
           | 1 => some (usize_add1 position)
           | -1 => some (usize_sub1 position)
           | _ => none) with
    | none => none
    | some neighbor_index =>
      match listGet? status neighbor_index with
      | none => some none
      | some neighbor =>
        match listGet? mountains neighbor with
        | none => none
        | some m2 =>
          match intersects_with_neighbor m1 m2 with
          | some intersection =>
            some (some { value := intersection
                         event_type := EventType.Intersection
                         parent_mountain_id := m1.id
                         parent_mountain2_id := some neighbor })
          | none => some none

/-- The mutable state of `generate`'s sweep loop: output layers, the owning
mountain list, the heap contents, and the `VecDeque` status structure. -/
structure SweepState where
  landscapes : List (List PointOrd)
  mountains : List PersistenceMountain
  events : List Event
  status : List Nat
deriving DecidableEq

/-- One iteration of the `while let Some(event) = events.pop()` body of
`generate`, acting on the state after the pop; `none` is a panic. -/
def processEvent (k : Nat) (st : SweepState) (event : Event) :
    Option SweepState :=
  match event.event_type with
  | EventType.Birth =>
    match listGet? st.mountains event.parent_mountain_id with
    | none => none
    | some m =>
      let status' := st.status ++ [event.parent_mountain_id]
      let position := status'.length - 1
      let m' := { m with position := some position }
      let mountains' := st.mountains.set event.parent_mountain_id m'
      match log_to_landscape m' event st.landscapes k with
      | none => none
      | some ls =>
        match handle_intersection status' m' mountains' (-1) with
        | none => none
        | some optEv =>
          some { landscapes := ls
                 mountains := mountains'
                 events := match optEv with
                           | some e => e :: st.events
                           | none => st.events
                 status := status' }
  | EventType.Middle =>
    match listGet? st.mountains event.parent_mountain_id with
    | none => none
    | some m =>
      let m' := { m with slope_rising := false }
      let mountains' := st.mountains.set event.parent_mountain_id m'
      match log_to_landscape m' event st.landscapes k with
      | none => none
      | some ls =>
        match handle_intersection st.status m' mountains' 1 with
        | none => none
        | some optEv =>
          some { landscapes := ls
                 mountains := mountains'
                 events := match optEv with
                           | some e => e :: st.events
                           | none => st.events
                 status := st.status }
  | EventType.Death =>
    match listGet? st.mountains event.parent_mountain_id with
    | none => none
    | some m =>
      match log_to_landscape m event st.landscapes k with
      | none => none
      | some ls =>
        some { landscapes := ls
               mountains := st.mountains.set event.parent_mountain_id
                              { m with position := none }
               events := st.events
               status := st.status.dropLast }
  | EventType.Intersection =>
    match listGet? st.mountains event.parent_mountain_id with
    | none => none
    | some m1 =>
      match log_to_landscape m1 event st.landscapes k with
      | none => none
      | some ls1 =>
        match event.parent_mountain2_id with
        | none => none
        | some id2 =>
          match listGet? st.mountains id2 with
          | none => none
          | some m2 =>
            match log_to_landscape m2 event ls1 k with
            | none => none
            | some ls2 =>
              if m1.slope_rising = true then
                some { st with landscapes := ls2 }
              else none

/-- The sweep loop, fuel-bounded; returns the final state together with the
trace of extracted events in extraction order (`none` on a panic or on fuel
exhaustion — the fuel used by `generate` covers every possible run, since
each of the `n` Birth and `n` Middle events enqueues at most one
intersection event and intersection processing enqueues nothing). -/
def sweepLoop (k : Nat) : Nat → SweepState → List Event →
    Option (SweepState × List Event)
  | 0, st, tr =>
    match popMax st.events with
    | none => some (st, tr.reverse)
    | some _ => none
  | fuel + 1, st, tr =>
    match popMax st.events with
    | none => some (st, tr.reverse)
    | some (e, rest) =>
      match processEvent k { st with events := rest } e with
      | none => none
      | some st' => sweepLoop k fuel st' (e :: tr)

/-- `generate` together with the trace of extracted events.
`landscapes` starts as `Vec::with_capacity(k)`, i.e. the empty list. -/
def generateFull (bd_pairs : List BirthDeath) (k : Nat) :
    Option (SweepState × List Event) :=
  let mountains := generate_mountains bd_pairs
  sweepLoop k (5 * mountains.length + 1)
    { landscapes := []
      mountains := mountains
      events := generate_initial_events mountains
      status := [] } []

/-- The public entry point `generate`; `none` models a panicking run. -/
def generate (bd_pairs : List BirthDeath) (k : Nat) :
    Option (List (List PointOrd)) :=
  (generateFull bd_pairs k).map (fun r => r.1.landscapes)

/-- The sequence of events extracted from the priority queue during
`generate`'s sweep loop, in extraction order. -/
def generateTrace (bd_pairs : List BirthDeath) (k : Nat) :
    Option (List Event) :=
  (generateFull bd_pairs k).map (fun r => r.2)

/-- Spec-side predicate: point `c` lies strictly inside segment `L`
(in the open interior, excluding both endpoints). -/
def StrictlyInside (L : Line) (c : Coord) : Prop :=
  ∃ t : ℚ, 0 < t ∧ t < 1 ∧
    c.x = L.start.x + t * (L.end_.x - L.start.x) ∧
    c.y = L.start.y + t * (L.end_.y - L.start.y)

/-- Spec-side predicate: the two segments meet in the single proper interior
point `c` — `c` is interior to both segments and the segments are not
parallel, so `c` is their unique common point (this excludes collinear
overlaps, endpoint touches and non-intersections). -/
def ProperInteriorMeet (L1 L2 : Line) (c : Coord) : Prop :=
  StrictlyInside L1 c ∧ StrictlyInside L2 c ∧
  cross (L1.end_.sub L1.start) (L2.end_.sub L2.start) ≠ 0

/-- Concrete dead (unranked) mountain used to witness the abort behavior. -/
def mW6 : PersistenceMountain :=
  { position := none, slope_rising := true
    birth := { x := 0, y := 0 }, middle := { x := 2, y := 2 }
    death := { x := 4, y := 0 }, id := 0 }

/-- Concrete Death event owned by `mW6`. -/
def eW6 : Event :=
  { value := { x := 4, y := 0 }, event_type := EventType.Death
    parent_mountain_id := 0, parent_mountain2_id := none }

/-- Concrete sweep state holding the unranked mountain `mW6`. -/
def stW6 : SweepState :=
  { landscapes := [], mountains := [mW6], events := [eW6], status := [] }

/-- Concrete rising mountain at rank 0 (tent of the pair (0, 4)). -/
def mW3a : PersistenceMountain :=
  { position := some 0, slope_rising := true
    birth := { x := 0, y := 0 }, middle := { x := 2, y := 2 }
    death := { x := 4, y := 0 }, id := 0 }

/-- Concrete falling mountain at rank 1 (tent of the pair (1, 3), past its
apex). -/
def mW3b : PersistenceMountain :=
  { position := some 1, slope_rising := false
    birth := { x := 1, y := 0 }, middle := { x := 2, y := 1 }
    death := { x := 3, y := 0 }, id := 1 }

/-- Concrete Intersection event between `mW3a` (primary) and `mW3b`. -/
def eW3 : Event :=
  { value := { x := 5/2, y := 1/2 }, event_type := EventType.Intersection
    parent_mountain_id := 0, parent_mountain2_id := some 1 }

/-- Concrete sweep state in which `eW3` is processed successfully. -/
def stW3 : SweepState :=
  { landscapes := [], mountains := [mW3a, mW3b], events := [], status := [0, 1] }

/-- C1: the claim states that for finite birth<death input, every layer
`i < k` of `generate`'s output interpolates to the (i+1)-th largest tent
value.  It fails already for the single pair (0, 2) with k = 1: the
max-heap pops the Death event (largest x) first, its mountain is still
unranked, and `log_to_landscape`'s `expect` panics, so `generate` aborts
and returns no layer at all. -/
theorem c1_rank_envelope_fails_on_single_tent :
    generate [{ birth := some 0, death := some 2 }] 1 = none := by
  with_unfolding_all rfl

/-- C2: the claim states that events are extracted in nondecreasing x
order.  For input [(4, 0)] with k = 0 the sweep runs to completion and the
extracted events have x coordinates 4, 2, 0 — strictly decreasing, because
`BinaryHeap` is a max-heap and the `Event` comparison key is not
inverted. -/
theorem c2_extraction_order_not_increasing :
    (generateTrace [{ birth := some 4, death := some 0 }] 0).map
        (fun tr => tr.map (fun e => e.value.x)) = some [4, 2, 0] ∧
    ¬ List.Chain' (· ≤ ·) [(4 : ℚ), 2, 0] := by
  constructor
  · with_unfolding_all rfl
  · intro h
    have := List.chain'_cons.mp h
    norm_num at this

/-- C4: the claim states that `generate` returns exactly k layers, with
trailing empty layers when k exceeds the maximum overlap.  The code
initializes `landscapes` with `Vec::with_capacity(k)` — an empty vector —
and never extends it, so the empty input with k = 2 yields 0 layers, not
2 empty layers (and any input with a finite pair and k > 0 panics). -/
theorem c4_output_not_k_layers :
    generate [] 2 = some [] ∧ ([] : List (List PointOrd)).length ≠ 2 := by
  constructor
  · with_unfolding_all rfl
  · decide

/-- C5: the claim states `generate [(0,4)] 1 = [[(0,0), (2,2), (4,0)]]`.
Instead the max-heap pops the Death event at (4, 0) first, its mountain is
still unranked, and the run panics: `generate` returns no result. -/
theorem c5_example_one_tent_aborts :
    generate [{ birth := some 0, death := some 4 }] 1 = none := by
  with_unfolding_all rfl

/-- C8: for every finite pair, `create_mountain` builds the tent with birth
point (birth, 0), apex ((birth+death)/2, (death-birth)/2) and death point
(death, 0), and `generate_initial_events` emits exactly the three events
Birth, Middle, Death for the tent, tagged with its identity and carrying
the corresponding points. -/
theorem c8_tent_builder_and_event_seeder (b d : ℚ) (i : Nat) :
    (create_mountain b d i).birth = { x := b, y := 0 } ∧
    (create_mountain b d i).middle = { x := (b + d) / 2, y := (d - b) / 2 } ∧
    (create_mountain b d i).death = { x := d, y := 0 } ∧
    (create_mountain b d i).id = i ∧
    generate_initial_events [create_mountain b d i] =
      [ { value := { x := b, y := 0 }, event_type := EventType.Birth,
          parent_mountain_id := i, parent_mountain2_id := none },
        { value := { x := (b + d) / 2, y := (d - b) / 2 },
          event_type := EventType.Middle,
          parent_mountain_id := i, parent_mountain2_id := none },
        { value := { x := d, y := 0 }, event_type := EventType.Death,
          parent_mountain_id := i, parent_mountain2_id := none } ] := by
  have hmid : (d - b) / 2 + b = (b + d) / 2 := by ring
  refine ⟨rfl, ?_, rfl, rfl, ?_⟩
  · simp only [create_mountain]
    rw [hmid]
  · simp only [generate_initial_events, create_mountain, List.map_cons,
      List.map_nil, List.flatten]
    rw [hmid]
    rfl

/- Helper: the sweep-loop body aborts (returns `none`) on a Death, Middle or
Intersection event whose mountain is unranked, and on an Intersection event
whose primary mountain is not rising. -/
theorem processEvent_aborts (k : Nat) (st : SweepState) (e : Event)
    (m : PersistenceMountain)
    (hm : listGet? st.mountains e.parent_mountain_id = some m)
    (h : ((e.event_type = EventType.Death ∨ e.event_type = EventType.Middle ∨
           e.event_type = EventType.Intersection) ∧ m.position = none) ∨
         (e.event_type = EventType.Intersection ∧ m.slope_rising = false)) :
    processEvent k st e = none := by
  rcases h with ⟨htype, hpos⟩ | ⟨htype, hslope⟩
  · rcases htype with htype | htype | htype
    all_goals
      simp only [processEvent, htype, hm, log_to_landscape, hpos]
  · simp only [processEvent, htype, hm]
    cases hlog : log_to_landscape m e st.landscapes k with
    | none => simp
    | some ls1 =>
      cases h2 : e.parent_mountain2_id with
      | none => simp [h2]
      | some id2 =>
        cases hg2 : listGet? st.mountains id2 with
        | none => simp [h2, hg2]
        | some m2 =>
          cases hlog2 : log_to_landscape m2 e ls1 k with
          | none => simp [h2, hg2, hlog2]
          | some ls2 => simp [h2, hg2, hlog2, hslope]

/-- C3: the claim states that processing an Intersection event exchanges the
two tents' ranks and re-probes both against their new neighbors.  The code
does neither: whenever an Intersection event is processed successfully, the
mountain list (hence every `position` field), the status sequence and the
event queue are all left unchanged — only the output layers grow. -/
theorem c3_intersection_swap_missing (k : Nat) (st st' : SweepState)
    (e : Event) (htype : e.event_type = EventType.Intersection)
    (h : processEvent k st e = some st') :
    st'.mountains = st.mountains ∧ st'.status = st.status ∧
    st'.events = st.events := by
  simp only [processEvent, htype] at h
  cases hg : listGet? st.mountains e.parent_mountain_id with
  | none => simp only [hg] at h; exact Option.noConfusion h
  | some m1 =>
    simp only [hg] at h
    cases hlog : log_to_landscape m1 e st.landscapes k with
    | none => simp only [hlog] at h; exact Option.noConfusion h
    | some ls1 =>
      simp only [hlog] at h
      cases h2 : e.parent_mountain2_id with
      | none => simp only [h2] at h; exact Option.noConfusion h
      | some id2 =>
        simp only [h2] at h
        cases hg2 : listGet? st.mountains id2 with
        | none => simp only [hg2] at h; exact Option.noConfusion h
        | some m2 =>
          simp only [hg2] at h
          cases hlog2 : log_to_landscape m2 e ls1 k with
          | none => simp only [hlog2] at h; exact Option.noConfusion h
          | some ls2 =>
            simp only [hlog2] at h
            by_cases hsr : m1.slope_rising = true
            · rw [if_pos hsr] at h
              have hst := Option.some.inj h
              rw [← hst]
              exact ⟨rfl, rfl, rfl⟩
            · rw [if_neg hsr] at h
              exact absurd h (by simp)

/-- Witness for C3: a concrete Intersection event between a rising rank-0
tent and a falling rank-1 tent is processed successfully (no panic), and
the theorem applies: the state's ranks, status and queue are unchanged. -/
theorem c3_intersection_swap_missing_witness :
    eW3.event_type = EventType.Intersection ∧
    processEvent 0 stW3 eW3 = some stW3 ∧
    (stW3.mountains = stW3.mountains ∧ stW3.status = stW3.status ∧
     stW3.events = stW3.events) := by
  have hp : processEvent 0 stW3 eW3 = some stW3 := by with_unfolding_all rfl
  exact ⟨rfl, hp, c3_intersection_swap_missing 0 stW3 stW3 eW3 rfl hp⟩

/-- C6: processing a Death, Middle or Intersection event whose tent has no
current rank, or an Intersection event whose primary tent is not in rising
phase, aborts the computation: the loop body returns `none` (a panic), and
a sweep loop that pops such an event returns `none` instead of a result. -/
theorem c6_unranked_or_nonrising_event_aborts (k : Nat) (st : SweepState)
    (e : Event) (m : PersistenceMountain)
    (hm : listGet? st.mountains e.parent_mountain_id = some m)
    (h : ((e.event_type = EventType.Death ∨ e.event_type = EventType.Middle ∨
           e.event_type = EventType.Intersection) ∧ m.position = none) ∨
         (e.event_type = EventType.Intersection ∧ m.slope_rising = false)) :
    processEvent k st e = none ∧
    ∀ fuel tr rest, popMax st.events = some (e, rest) →
      sweepLoop k (fuel + 1) st tr = none := by
  constructor
  · exact processEvent_aborts k st e m hm h
  · intro fuel tr rest hpop
    have habort : processEvent k { st with events := rest } e = none :=
      processEvent_aborts k { st with events := rest } e m hm h
    simp only [sweepLoop, hpop, habort]

/-- Witness for C6: a concrete Death event for an unranked tent makes the
loop body abort. -/
theorem c6_unranked_or_nonrising_event_aborts_witness :
    listGet? stW6.mountains eW6.parent_mountain_id = some mW6 ∧
    processEvent 1 stW6 eW6 = none := by
  have hm : listGet? stW6.mountains eW6.parent_mountain_id = some mW6 := by
    with_unfolding_all rfl
  exact ⟨hm, (c6_unranked_or_nonrising_event_aborts 1 stW6 eW6 mW6 hm
    (Or.inl ⟨Or.inl rfl, rfl⟩)).1⟩

/-- C7: a pair with a non-finite (infinite or NaN) birth or death
contributes nothing: removing it from the input leaves `generate`'s result
unchanged — such pairs are silently filtered out by `generate_mountains`,
never rejected with an error. -/
theorem c7_nonfinite_pair_removal_invariant (l1 l2 : List BirthDeath)
    (bd : BirthDeath) (k : Nat) (h : bd.birth = none ∨ bd.death = none) :
    generate (l1 ++ bd :: l2) k = generate (l1 ++ l2) k := by
  have hfin : bd.is_finite = false := by
    rcases h with h | h <;> simp [BirthDeath.is_finite, h]
  have hmnt : generate_mountains (l1 ++ bd :: l2) = generate_mountains (l1 ++ l2) := by
    unfold generate_mountains
    rw [List.filter_append, List.filter_append, List.filter_cons, hfin]
    simp
  unfold generate generateFull
  rw [hmnt]

/-- Witness for C7: removing a concrete non-finite pair from a concrete
input leaves the output unchanged. -/
theorem c7_nonfinite_pair_removal_invariant_witness :
    (({ birth := none, death := some 1 } : BirthDeath).birth = none ∨
     ({ birth := none, death := some 1 } : BirthDeath).death = none) ∧
    generate ([] ++ ({ birth := none, death := some 1 } : BirthDeath) ::
        [{ birth := some 0, death := some 4 }]) 1 =
      generate ([] ++ [{ birth := some 0, death := some 4 }]) 1 :=
  ⟨Or.inl rfl,
   c7_nonfinite_pair_removal_invariant [] [{ birth := some 0, death := some 4 }]
     { birth := none, death := some 1 } 1 (Or.inl rfl)⟩

/-- C10: for every k, `generate` applied to an empty pair list — or to a
list all of whose pairs have a non-finite birth or death — returns the
empty vector with zero layers, not k empty layers. -/
theorem c10_no_mountains_empty_output (l : List BirthDeath) (k : Nat)
    (h : ∀ bd ∈ l, bd.birth = none ∨ bd.death = none) :
    generate l k = some [] := by
  have hmnt : generate_mountains l = [] := by
    unfold generate_mountains
    have hf : l.filter BirthDeath.is_finite = [] := by
      rw [List.filter_eq_nil_iff]
      intro a ha
      rcases h a ha with h' | h' <;> simp [BirthDeath.is_finite, h']
    rw [hf]
    rfl
  unfold generate generateFull
  rw [hmnt]
  rfl

/-- Witness for C10: a list with one non-finite pair and k = 7 yields the
empty output (the empty-list case is the hypothesis holding vacuously). -/
theorem c10_no_mountains_empty_output_witness :
    (∀ bd ∈ [({ birth := some 2, death := none } : BirthDeath)],
      bd.birth = none ∨ bd.death = none) ∧
    generate [{ birth := some 2, death := none }] 7 = some [] := by
  have h : ∀ bd ∈ [({ birth := some 2, death := none } : BirthDeath)],
      bd.birth = none ∨ bd.death = none := by
    intro bd hbd
    rcases List.mem_singleton.mp hbd with rfl
    exact Or.inr rfl
  exact ⟨h, c10_no_mountains_empty_output _ 7 h⟩

/- Helper: Cramer's rule — a point lying on both (non-parallel) lines has
the parameters computed by `line_intersection`. -/
theorem cramer_params {px py rx ry qx qy sx sy t' u' cx cy : ℚ}
    (hd : rx * sy - ry * sx ≠ 0)
    (hx1 : cx = px + t' * rx) (hy1 : cy = py + t' * ry)
    (hx2 : cx = qx + u' * sx) (hy2 : cy = qy + u' * sy) :
    t' = ((qx - px) * sy - (qy - py) * sx) / (rx * sy - ry * sx) ∧
    u' = ((qx - px) * ry - (qy - py) * rx) / (rx * sy - ry * sx) := by
  constructor
  · field_simp
    linear_combination (-sy) * hx1 + sy * hx2 + sx * hy1 - sx * hy2
  · field_simp
    linear_combination (-ry) * hx1 + ry * hx2 + rx * hy1 - rx * hy2

/- Helper: the point `start₁ + t · dir₁` computed by `line_intersection`
also lies at parameter `u` on the second line. -/
theorem point_on_second {px py rx ry qx qy sx sy : ℚ}
    (hd : rx * sy - ry * sx ≠ 0) :
    px + (((qx - px) * sy - (qy - py) * sx) / (rx * sy - ry * sx)) * rx =
      qx + (((qx - px) * ry - (qy - py) * rx) / (rx * sy - ry * sx)) * sx ∧
    py + (((qx - px) * sy - (qy - py) * sx) / (rx * sy - ry * sx)) * ry =
      qy + (((qx - px) * ry - (qy - py) * rx) / (rx * sy - ry * sx)) * sy := by
  constructor
  · field_simp
    ring
  · field_simp
    ring

/- Helper: the modelled `line_intersection` returns a proper single point
exactly when the two segments meet in a single proper interior point. -/
theorem line_intersection_proper_iff (P Q : Line) (c : Coord) :
    line_intersection P Q = some (LineIntersection.SinglePoint c true) ↔
    ProperInteriorMeet P Q c := by
  obtain ⟨⟨pxs, pys⟩, ⟨pxe, pye⟩⟩ := P
  obtain ⟨⟨qxs, qys⟩, ⟨qxe, qye⟩⟩ := Q
  obtain ⟨cx, cy⟩ := c
  simp only [line_intersection, ProperInteriorMeet, StrictlyInside, cross, Coord.sub]
  by_cases hd : (pxe - pxs) * (qye - qys) - (pye - pys) * (qxe - qxs) = 0
  · rw [if_pos hd]
    apply iff_of_false
    · by_cases hw : (qxs - pxs) * (pye - pys) - (qys - pys) * (pxe - pxs) = 0
      · rw [if_pos hw]
        intro hmem
        exact LineIntersection.noConfusion (Option.some.inj hmem)
      · rw [if_neg hw]
        intro hmem
        exact Option.noConfusion hmem
    · intro hP
      exact hP.2.2 hd
  · rw [if_neg hd]
    constructor
    · intro hmem
      split at hmem
      next hb =>
        obtain ⟨hb0, hb1, hb2, hb3⟩ := hb
        injection hmem with h1
        injection h1 with hpt hfl
        injection hpt with hx hy
        obtain ⟨ht0, ht1, hu0, hu1⟩ := of_decide_eq_true hfl
        obtain ⟨hsx, hsy⟩ := @point_on_second pxs pys (pxe - pxs) (pye - pys)
          qxs qys (qxe - qxs) (qye - qys) hd
        refine ⟨⟨_, ht0, ht1, hx.symm, hy.symm⟩,
                ⟨_, hu0, hu1, ?_, ?_⟩, hd⟩
        · rw [← hx, hsx]
        · rw [← hy, hsy]
      next hb =>
        exact Option.noConfusion hmem
    · rintro ⟨⟨t', ht0, ht1, htx, hty⟩, ⟨u', hu0, hu1, hux, huy⟩, -⟩
      obtain ⟨hT, hU⟩ := cramer_params hd htx hty hux huy
      rw [hT] at ht0 ht1
      rw [hU] at hu0 hu1
      rw [if_pos ⟨le_of_lt ht0, le_of_lt ht1, le_of_lt hu0, le_of_lt hu1⟩]
      have hcx : pxs +
          (((qxs - pxs) * (qye - qys) - (qys - pys) * (qxe - qxs)) /
            ((pxe - pxs) * (qye - qys) - (pye - pys) * (qxe - qxs))) * (pxe - pxs) = cx := by
        rw [htx, hT]
      have hcy : pys +
          (((qxs - pxs) * (qye - qys) - (qys - pys) * (qxe - qxs)) /
            ((pxe - pxs) * (qye - qys) - (pye - pys) * (qxe - qxs))) * (pye - pys) = cy := by
        rw [hty, hT]
      rw [hcx, hcy, decide_eq_true ⟨ht0, ht1, hu0, hu1⟩]

/-- C9: the intersection detector returns nothing when the two tents share
slope direction; otherwise it returns a point exactly when the tents'
currently active segments (birth-to-apex when rising, apex-to-death when
falling, as built by `create_line_segment`) meet in a single proper
interior point, and that point is the returned one — collinear overlaps,
endpoint touches and non-intersections all yield nothing. -/
theorem c9_intersection_detector_proper_only (m1 m2 : PersistenceMountain)
    (p : PointOrd) :
    intersects_with_neighbor m1 m2 = some p ↔
    (m1.slope_rising ≠ m2.slope_rising ∧
     ProperInteriorMeet (create_line_segment m1) (create_line_segment m2)
       { x := p.x, y := p.y }) := by
  unfold intersects_with_neighbor
  by_cases hs : m1.slope_rising = m2.slope_rising
  · rw [if_pos hs]
    apply iff_of_false
    · exact Option.noConfusion
    · intro h
      exact h.1 hs
  · rw [if_neg hs]
    constructor
    · intro h
      cases hli : line_intersection (create_line_segment m1) (create_line_segment m2) with
      | none => rw [hli] at h; exact Option.noConfusion h
      | some li =>
        cases li with
        | Collinear => rw [hli] at h; exact Option.noConfusion h
        | SinglePoint cpt fl =>
          cases fl with
          | false => rw [hli] at h; exact Option.noConfusion h
          | true =>
            rw [hli] at h
            have hp := Option.some.inj h
            refine ⟨hs, ?_⟩
            have hmeet := (line_intersection_proper_iff _ _ cpt).mp hli
            have hc : ({ x := p.x, y := p.y } : Coord) = cpt := by
              rw [← hp]
            rwa [hc]
    · rintro ⟨-, hP⟩
      have hli := (line_intersection_proper_iff _ _ _).mpr hP
      rw [hli]
